import Mathlib

/-!
Verification of the asynchronous thunk lifecycle orchestrator implemented in
src/createAsyncThunk.ts.

The embedding models the JavaScript values the code manipulates as an
inductive type of primitives and flat objects whose fields hold primitives.
Every operation of the source treats a nested object field exactly like any
other non-string field (the error normalizer only asks whether a field is a
string, and the name lookup only compares against fixed strings), so the
flat object model loses no behavior the source distinguishes.

The orchestrator body of createAsyncThunk is embedded as runInvocation: it
takes the options record, the request identifier produced by the generator,
the argument, the way the user computation settles, and the list of abort
calls made by the caller together with the phase at which each call happens
(before the invocation is marked started, or while the computation is still
pending). It returns the ordered list of events dispatched to the sink and
the final action resolved to the caller.
-/

namespace AsyncThunk

/-- Primitive JavaScript values. -/
inductive JSPrim where
  | str : String → JSPrim
  | num : Int → JSPrim
  | boolean : Bool → JSPrim
  | null : JSPrim
  | undef : JSPrim
deriving Repr, DecidableEq

/-- JavaScript values: a primitive, or an object with primitive fields. -/
inductive JSValue where
  | prim : JSPrim → JSValue
  | obj : List (String × JSPrim) → JSValue
deriving Repr, DecidableEq

/-- The JavaScript String conversion applied by the source to non object
values, as in String of value. -/
def jsToString : JSValue → String
  | .prim (.str s) => s
  | .prim (.num n) => toString n
  | .prim (.boolean true) => "true"
  | .prim (.boolean false) => "false"
  | .prim .null => "null"
  | .prim .undef => "undefined"
  | .obj _ => "[object Object]"

/-- JavaScript truthiness of a value: the empty string, zero, false, null
and undefined are falsy; every other primitive and every object is
truthy. -/
def jsTruthy : JSValue → Bool
  | .prim (.str s) => !(s == "")
  | .prim (.num n) => !(n == 0)
  | .prim (.boolean b) => b
  | .prim .null => false
  | .prim .undef => false
  | .obj _ => true

/-- The SerializedError shape of the source: four optional string fields. -/
structure SerializedError where
  name : Option String := none
  message : Option String := none
  stack : Option String := none
  code : Option String := none
deriving Repr, DecidableEq

/-- Reads a field of an object and keeps it only when it is a string,
mirroring the typeof check of miniSerializeError. -/
def getStr (fields : List (String × JSPrim)) (k : String) : Option String :=
  match fields.lookup k with
  | some (JSPrim.str s) => some s
  | _ => none

/-- The default error normalizer of the source. An object (and in
JavaScript null is excluded by the explicit null check) keeps exactly the
string typed fields among name, message, stack and code; any other value
becomes a record whose message is its string conversion. Total by
construction, so it never throws. -/
def miniSerializeError (value : JSValue) : SerializedError :=
  match value with
  | .obj fields =>
      { name := getStr fields "name"
        message := getStr fields "message"
        stack := getStr fields "stack"
        code := getStr fields "code" }
  | v => { message := some (jsToString v) }

/-- Helper building the object field list of a serialized error. -/
def optField (k : String) (v : Option String) : List (String × JSPrim) :=
  match v with
  | some s => [(k, JSPrim.str s)]
  | none => []

/-- The serialized error viewed as the JavaScript object the code throws
from unwrapResult: fields are laid out in the loop order of the source. -/
def SerializedError.toJS (e : SerializedError) : JSValue :=
  JSValue.obj (optField "name" e.name ++ optField "message" e.message ++
    optField "stack" e.stack ++ optField "code" e.code)

/-- The error argument accepted by the rejected action creator: null, a
RejectWithValue instance wrapping a payload, or any other thrown value. -/
inductive ErrArg where
  | null : ErrArg
  | rwv : JSValue → ErrArg
  | plain : JSValue → ErrArg
deriving Repr, DecidableEq

/-- The name property read by the creator. A RejectWithValue instance has
the fixed name RejectWithValue; reading name on a primitive gives
undefined, hence no string. -/
def errArgName : ErrArg → Option String
  | .null => none
  | .rwv _ => some "RejectWithValue"
  | .plain (.obj fields) => getStr fields "name"
  | .plain (.prim _) => none

/-- Serialization of the error argument, embedding the expression that
applies the normalizer to the error or else to the fallback literal
Rejected. The JavaScript or substitutes the fallback for every falsy
error: null, undefined, zero, the empty string and false, not only for
null. A RejectWithValue instance is a truthy object whose string typed
fields are its fixed name and message class fields. -/
def serializeErrArg : ErrArg → SerializedError
  | .null => miniSerializeError (.prim (.str "Rejected"))
  | .rwv _ => miniSerializeError
      (.obj [("name", .str "RejectWithValue"), ("message", .str "Rejected")])
  | .plain v =>
      miniSerializeError (if jsTruthy v then v else .prim (.str "Rejected"))

/-- The three event variants produced by the event family of the source,
with the metadata fields of each variant. -/
inductive Action where
  | pending (requestId : String) (arg : JSValue)
  | fulfilled (payload : JSValue) (requestId : String) (arg : JSValue)
  | rejected (payload : Option JSValue) (error : SerializedError)
      (arg : JSValue) (requestId : String)
      (rejectedWithValue : Bool) (aborted : Bool) (condition : Bool)
deriving Repr, DecidableEq

/-- The payload field of an action; pending actions carry undefined. -/
def Action.payloadOf : Action → Option JSValue
  | .pending _ _ => none
  | .fulfilled v _ _ => some v
  | .rejected p _ _ _ _ _ _ => p

/-- The error field of an action; only rejected actions carry one. -/
def Action.errorOf : Action → Option SerializedError
  | .rejected _ e _ _ _ _ _ => some e
  | _ => none

/-- The rejectedWithValue meta flag; absent (hence falsy) outside
rejected actions. -/
def Action.rwvOf : Action → Bool
  | .rejected _ _ _ _ r _ _ => r
  | _ => false

/-- The condition meta flag; absent (hence falsy) outside rejected
actions. -/
def Action.conditionOf : Action → Bool
  | .rejected _ _ _ _ _ _ c => c
  | _ => false

/-- The aborted meta flag; absent outside rejected actions. -/
def Action.abortedOf : Action → Bool
  | .rejected _ _ _ _ _ a _ => a
  | _ => false

/-- Recognizes the Started event. -/
def isStartedA : Action → Bool
  | .pending _ _ => true
  | _ => false

/-- Recognizes a terminal event, fulfilled or rejected. -/
def isTerminalA : Action → Bool
  | .pending _ _ => false
  | _ => true

/-- The match predicate of the rejected constructor, specialized to one
event family. -/
def isRejectedA : Action → Bool
  | .rejected _ _ _ _ _ _ _ => true
  | _ => false

/-- The rejected action creator of the source: payload is the wrapped
value for a RejectWithValue instance and undefined otherwise; the error
field holds the serialized error; the flags come from the instanceof
check and from comparing the name property with the AbortError and
ConditionError markers. -/
def rejected (error : ErrArg) (requestId : String) (arg : JSValue) : Action :=
  Action.rejected
    (match error with | .rwv v => some v | _ => none)
    (serializeErrArg error)
    arg requestId
    (match error with | .rwv _ => true | _ => false)
    (errArgName error == some "AbortError")
    (errArgName error == some "ConditionError")

/-- The result unwrapper of the source. When the rejectedWithValue meta
flag is set it throws the payload; otherwise, when the error field is
present (a serialized error object is always truthy) it throws that
object; otherwise it returns the payload. Thrown values are the error
side of the Except. -/
def unwrapResult (a : Action) : Except JSValue JSValue :=
  if a.rwvOf then Except.error (a.payloadOf.getD (.prim .undef))
  else
    match a.errorOf with
    | some e => Except.error e.toJS
    | none => Except.ok (a.payloadOf.getD (.prim .undef))

/-- The options record of createAsyncThunk restricted to the data the
lifecycle claims depend on: the result of the condition predicate when one
is configured (none when no condition is configured, some none when the
predicate returns undefined) and the dispatchConditionRejection flag,
whose absence is the boolean default false. The pluggable serializeError
and idGenerator options keep their defaults in this model. -/
structure Opts where
  condition : Option (Option Bool)
  dispatchConditionRejection : Bool
deriving Repr, DecidableEq

/-- How the user computation settles when it is allowed to finish: a plain
value, a RejectWithValue marker, or a thrown value. -/
inductive CompResult where
  | value : JSValue → CompResult
  | reject : JSValue → CompResult
  | thrown : JSValue → CompResult
deriving Repr, DecidableEq

/-- The phase at which an abort call is made: before the invocation is
marked started, or after the Started event while the computation is still
pending. -/
inductive Phase where
  | beforeStart : Phase
  | whileRunning : Phase
deriving Repr, DecidableEq, BEq

/-- One abort call with its optional reason. -/
structure AbortCall where
  phase : Phase
  reason : Option String
deriving Repr, DecidableEq

/-- The mutable state touched by the abort closure of the source: the
started flag, the one way aborted flag of the controller signal, the
abortReason variable, and the message the abort listener rejected the
aborted promise with when the signal fired. -/
structure AbortState where
  started : Bool
  signalAborted : Bool
  abortReason : Option String
  firedMessage : Option String
deriving Repr, DecidableEq

/-- The JavaScript or elvis applied to the abort reason: an absent or
empty reason falls back to the default. -/
def jsOr (r : Option String) (d : String) : String :=
  match r with
  | some s => if s = "" then d else s
  | none => d

/-- One abort call of the source: a no op unless the invocation is
started; it stores the reason, and if the signal had not fired yet it
fires it, the listener capturing the message from the current reason. A
second call finds the signal already aborted and changes nothing
observable. -/
def applyAbort (s : AbortState) (reason : Option String) : AbortState :=
  match s.started with
  | false => s
  | true =>
    match s.signalAborted with
    | true => { s with abortReason := reason }
    | false =>
      { s with
        abortReason := reason
        signalAborted := true
        firedMessage := some (jsOr reason "Aborted") }

/-- The abort state at invocation creation. -/
def initialAbortState : AbortState :=
  { started := false, signalAborted := false,
    abortReason := none, firedMessage := none }

/-- Applies a sequence of abort calls in order. -/
def foldAborts (calls : List AbortCall) (s : AbortState) : AbortState :=
  calls.foldl (fun t c => applyAbort t c.reason) s

/-- Whether the gate short circuits: true exactly when a condition is
configured and returns the boolean false, embedding the strict triple
equality of the source. -/
def gateSkips : Option Opts → Bool
  | some o => o.condition == some (some false)
  | none => false

/-- The literal thrown by the source when the condition returns false. -/
def conditionErrorObj : JSValue :=
  .obj [("name", .str "ConditionError"),
        ("message", .str "Aborted due to condition callback returning false.")]

/-- The rejection value of the aborted promise built by the abort
listener. -/
def abortErrorObj (msg : String) : JSValue :=
  .obj [("name", .str "AbortError"), ("message", .str msg)]

/-- The abort state after the running phase: calls before start are
applied while started is false, then started becomes true exactly when
the gate did not skip, then the calls made while the computation is
pending are applied. -/
def abortStateAfterRunning (options : Option Opts) (aborts : List AbortCall) :
    AbortState :=
  foldAborts (aborts.filter (fun c => c.phase == Phase.whileRunning))
    { foldAborts (aborts.filter (fun c => c.phase == Phase.beforeStart))
        initialAbortState with
      started := !gateSkips options }

/-- Classification of the settled computation by the then continuation of
the source: a RejectWithValue instance becomes a rejected action, any
other value a fulfilled action; a thrown value reaches the catch block and
becomes a rejected action. -/
def settleComp (comp : CompResult) (requestId : String) (arg : JSValue) :
    Action :=
  match comp with
  | .value v => Action.fulfilled v requestId arg
  | .reject v => rejected (.rwv v) requestId arg
  | .thrown e => rejected (.plain e) requestId arg

/-- The final action of the invocation: the condition error when the gate
skips; otherwise the abort rejection when the signal fired while the
computation was pending, since the race then resolves to the aborted
promise; otherwise the classification of the settled computation. -/
def finalActionOf (options : Option Opts) (requestId : String)
    (arg : JSValue) (comp : CompResult) (aborts : List AbortCall) : Action :=
  if gateSkips options then rejected (.plain conditionErrorObj) requestId arg
  else
    match (abortStateAfterRunning options aborts).firedMessage with
    | some m => rejected (.plain (abortErrorObj m)) requestId arg
    | none => settleComp comp requestId arg

/-- The skipDispatch guard of the source: options present, the
dispatchConditionRejection flag not set, the final action matched by the
rejected creator, and its condition meta flag set. -/
def skipDispatchOf (options : Option Opts) (finalAction : Action) : Bool :=
  match options with
  | some o => !o.dispatchConditionRejection && isRejectedA finalAction &&
      finalAction.conditionOf
  | none => false

/-- The Started events sent to the sink: none when the gate skips, else
exactly one pending action dispatched before the computation runs. -/
def startedTrace (options : Option Opts) (requestId : String)
    (arg : JSValue) : List Action :=
  if gateSkips options then [] else [Action.pending requestId arg]

/-- The terminal events sent to the sink: none when skipDispatch holds,
else exactly the final action. -/
def terminalTrace (options : Option Opts) (finalAction : Action) :
    List Action :=
  if skipDispatchOf options finalAction then [] else [finalAction]

/-- The observable outcome of one invocation: the ordered list of events
dispatched to the sink and the final action resolved to the caller. -/
structure RunResult where
  trace : List Action
  finalAction : Action
deriving Repr, DecidableEq

/-- One invocation of the thunk action: the dispatched events in sink
order and the returned final action. The final action is returned to the
caller whether or not it was dispatched. -/
def runInvocation (options : Option Opts) (requestId : String)
    (arg : JSValue) (comp : CompResult) (aborts : List AbortCall) :
    RunResult :=
  { trace := startedTrace options requestId arg ++
      terminalTrace options (finalActionOf options requestId arg comp aborts),
    finalAction := finalActionOf options requestId arg comp aborts }

/-- Unfolds the trace of an invocation into its two segments. -/
theorem run_trace_eq (options : Option Opts) (requestId : String)
    (arg : JSValue) (comp : CompResult) (aborts : List AbortCall) :
    (runInvocation options requestId arg comp aborts).trace =
      startedTrace options requestId arg ++
        terminalTrace options
          (finalActionOf options requestId arg comp aborts) := rfl

/-- The final action of an invocation is the classified outcome. -/
theorem run_final_eq (options : Option Opts) (requestId : String)
    (arg : JSValue) (comp : CompResult) (aborts : List AbortCall) :
    (runInvocation options requestId arg comp aborts).finalAction =
      finalActionOf options requestId arg comp aborts := rfl

/-- Every action built by the rejected creator is terminal. -/
theorem isTerminalA_rejected (e : ErrArg) (requestId : String)
    (arg : JSValue) : isTerminalA (rejected e requestId arg) = true := rfl

/-- Classifying a settled computation always yields a terminal action. -/
theorem isTerminalA_settleComp (comp : CompResult) (requestId : String)
    (arg : JSValue) : isTerminalA (settleComp comp requestId arg) = true := by
  cases comp <;> rfl

/-- The final action of any invocation is terminal, never a pending
action. -/
theorem isTerminalA_finalActionOf (options : Option Opts)
    (requestId : String) (arg : JSValue) (comp : CompResult)
    (aborts : List AbortCall) :
    isTerminalA (finalActionOf options requestId arg comp aborts) = true := by
  unfold finalActionOf
  split
  · exact isTerminalA_rejected _ _ _
  · split
    · exact isTerminalA_rejected _ _ _
    · exact isTerminalA_settleComp _ _ _

/-- A pending action differs from every terminal action. -/
theorem pending_ne_of_terminal {a : Action} (h : isTerminalA a = true)
    (requestId : String) (arg : JSValue) :
    Action.pending requestId arg ≠ a := by
  cases a with
  | pending r g => exact Bool.noConfusion h
  | fulfilled v r g => exact fun h2 => Action.noConfusion h2
  | rejected p e g r b1 b2 b3 => exact fun h2 => Action.noConfusion h2

/-- A pending action is not terminal. -/
theorem isTerminalA_pending (requestId : String) (arg : JSValue) :
    isTerminalA (Action.pending requestId arg) = false := rfl

/-- A terminal action is not a Started event. -/
theorem isStartedA_false_of_terminal {a : Action}
    (h : isTerminalA a = true) : isStartedA a = false := by
  cases a with
  | pending r g => exact Bool.noConfusion h
  | fulfilled v r g => rfl
  | rejected p e g r b1 b2 b3 => rfl

/-- The sink trace of any invocation is one of four concrete shapes:
empty, the final action alone, the pending action alone, or the pending
action followed by the final action. -/
theorem trace_shape (options : Option Opts) (requestId : String)
    (arg : JSValue) (comp : CompResult) (aborts : List AbortCall) :
    (runInvocation options requestId arg comp aborts).trace = [] ∨
    (runInvocation options requestId arg comp aborts).trace =
      [(runInvocation options requestId arg comp aborts).finalAction] ∨
    (runInvocation options requestId arg comp aborts).trace =
      [Action.pending requestId arg] ∨
    (runInvocation options requestId arg comp aborts).trace =
      [Action.pending requestId arg,
       (runInvocation options requestId arg comp aborts).finalAction] := by
  simp only [run_trace_eq, run_final_eq]
  unfold startedTrace terminalTrace
  split <;> split <;> simp

/-- When the gate does not skip, the first event at the sink is the
Started event. -/
theorem trace_head_of_not_skip (options : Option Opts) (requestId : String)
    (arg : JSValue) (comp : CompResult) (aborts : List AbortCall)
    (h : gateSkips options = false) :
    (runInvocation options requestId arg comp aborts).trace.head? =
      some (Action.pending requestId arg) := by
  simp only [run_trace_eq]
  unfold startedTrace
  rw [h]
  simp

/-- A field of the normalized error is present with value s exactly when
the source object has that field with the string s. -/
theorem getStr_iff (fields : List (String × JSPrim)) (k : String)
    (s : String) :
    getStr fields k = some s ↔ fields.lookup k = some (JSPrim.str s) := by
  unfold getStr
  cases h : fields.lookup k with
  | none => simp
  | some p => cases p <;> simp

/-- C9: the default error normalizer is a total function, hence never
throws; on an object it keeps exactly those of the fields name, message,
stack and code whose values are strings; on a non object value it returns
a record whose message is the string conversion of the value; the two
example inputs of the specification evaluate as stated. -/
theorem claim9_error_normalizer :
    (∀ fields s, (miniSerializeError (JSValue.obj fields)).name = some s ↔
      fields.lookup "name" = some (JSPrim.str s)) ∧
    (∀ fields s, (miniSerializeError (JSValue.obj fields)).message = some s ↔
      fields.lookup "message" = some (JSPrim.str s)) ∧
    (∀ fields s, (miniSerializeError (JSValue.obj fields)).stack = some s ↔
      fields.lookup "stack" = some (JSPrim.str s)) ∧
    (∀ fields s, (miniSerializeError (JSValue.obj fields)).code = some s ↔
      fields.lookup "code" = some (JSPrim.str s)) ∧
    (∀ p, miniSerializeError (JSValue.prim p) =
      { message := some (jsToString (JSValue.prim p)) }) ∧
    miniSerializeError (JSValue.obj
      [("name", .str "E"), ("message", .str "boom"), ("extra", .num 1)]) =
      { name := some "E", message := some "boom" } ∧
    miniSerializeError (JSValue.prim (.num 42)) = { message := some "42" } :=
  ⟨fun fields s => getStr_iff fields "name" s,
   fun fields s => getStr_iff fields "message" s,
   fun fields s => getStr_iff fields "stack" s,
   fun fields s => getStr_iff fields "code" s,
   fun _ => rfl, by decide, by decide⟩

/-- C8: the result unwrapper returns the payload of a Succeeded event and
throws on every Failed event: the original rejection payload when the
rejectedWithValue flag of the event is set, and the serialized error
object stored on the event otherwise, whatever terminal event is given;
in particular a marker rejection built by the creator throws its raw
wrapped value. -/
theorem claim8_unwrap_contract :
    (∀ (v : JSValue) (requestId : String) (arg : JSValue),
      unwrapResult (Action.fulfilled v requestId arg) = Except.ok v) ∧
    (∀ (p : Option JSValue) (e : SerializedError) (arg : JSValue)
        (requestId : String) (a c : Bool),
      unwrapResult (Action.rejected p e arg requestId true a c) =
        Except.error (p.getD (.prim .undef))) ∧
    (∀ (p : Option JSValue) (e : SerializedError) (arg : JSValue)
        (requestId : String) (a c : Bool),
      unwrapResult (Action.rejected p e arg requestId false a c) =
        Except.error e.toJS) ∧
    (∀ (v : JSValue) (requestId : String) (arg : JSValue),
      unwrapResult (rejected (.rwv v) requestId arg) = Except.error v) :=
  ⟨fun _ _ _ => rfl, fun _ _ _ _ _ _ => rfl, fun _ _ _ _ _ _ => rfl,
   fun _ _ _ => rfl⟩

/-- C10: a rejected event built from a thrown value or from null carries
payload undefined and a cleared rejectedWithValue flag; only a rejection
marker yields a payload, namely its wrapped value, together with the
flag. -/
theorem claim10_payload_undefined_unless_marker :
    (∀ (w : JSValue) (requestId : String) (arg : JSValue),
      (rejected (.plain w) requestId arg).payloadOf = none ∧
      (rejected (.plain w) requestId arg).rwvOf = false) ∧
    (∀ (requestId : String) (arg : JSValue),
      (rejected .null requestId arg).payloadOf = none ∧
      (rejected .null requestId arg).rwvOf = false) ∧
    (∀ (v : JSValue) (requestId : String) (arg : JSValue),
      (rejected (.rwv v) requestId arg).payloadOf = some v ∧
      (rejected (.rwv v) requestId arg).rwvOf = true) :=
  ⟨fun _ _ _ => ⟨rfl, rfl⟩, fun _ _ => ⟨rfl, rfl⟩, fun _ _ _ => ⟨rfl, rfl⟩⟩

/-- C3: a computation settling with a rejection marker yields a Failed
terminal event with the rejectedWithValue flag set, payload equal to the
wrapped value, the serialized error derived from the fixed literal name
and message of the marker class independently of the wrapped value, and
no original failure retained; unwrap throws the raw wrapped payload. The
payload seven instance throws seven itself, which differs from the
serialized error object. -/
theorem claim3_reject_with_value_event :
    (∀ (v : JSValue) (requestId : String) (arg : JSValue),
      (runInvocation none requestId arg (.reject v) []).finalAction =
        Action.rejected (some v)
          { name := some "RejectWithValue", message := some "Rejected" }
          arg requestId true false false ∧
      (runInvocation none requestId arg (.reject v) []).trace =
        [Action.pending requestId arg,
         (runInvocation none requestId arg (.reject v) []).finalAction] ∧
      unwrapResult
          (runInvocation none requestId arg (.reject v) []).finalAction =
        Except.error v) ∧
    unwrapResult (runInvocation none "id" (JSValue.prim .null)
        (.reject (JSValue.prim (.num 7))) []).finalAction =
      Except.error (JSValue.prim (.num 7)) ∧
    JSValue.prim (JSPrim.num 7) ≠
      (serializeErrArg (ErrArg.rwv (JSValue.prim (JSPrim.num 7)))).toJS :=
  ⟨fun _ _ _ => ⟨rfl, rfl, rfl⟩, rfl, by decide⟩

/-- C2 counterexample: for a computation that throws the number
forty two, unwrap re-raises the serialized error object, which is not the
original thrown value; so the claim that unwrap re-raises the original
value for an uncaught failure is false on the code. -/
theorem claim2_unwrap_serialized_cex :
    unwrapResult (runInvocation none "id" (JSValue.prim .null)
        (.thrown (JSValue.prim (.num 42))) []).finalAction =
      Except.error (JSValue.obj [("message", JSPrim.str "42")]) ∧
    JSValue.obj [("message", JSPrim.str "42")] ≠
      JSValue.prim (JSPrim.num 42) :=
  ⟨rfl, by decide⟩

/-- C2 amended: for an uncaught failure the terminal event stores a
serialized error and unwrap re-raises exactly that stored serialized
form, never the original thrown value, which is not retained on the
event; the stored form is the normalization of the thrown value when
that value is truthy and of the fallback literal Rejected when it is
falsy, mirroring the or else expression of the source; the original
value is re-raised by unwrap only for a deliberate rejection through the
marker. -/
theorem claim2_unwrap_uncaught_serialized :
    ∀ (e : JSValue) (requestId : String) (arg : JSValue),
      (∃ se, (runInvocation none requestId arg
            (.thrown e) []).finalAction.errorOf = some se ∧
        unwrapResult
            (runInvocation none requestId arg (.thrown e) []).finalAction =
          Except.error se.toJS) ∧
      (jsTruthy e = true →
        (runInvocation none requestId arg
            (.thrown e) []).finalAction.errorOf =
          some (miniSerializeError e)) ∧
      (jsTruthy e = false →
        (runInvocation none requestId arg
            (.thrown e) []).finalAction.errorOf =
          some (miniSerializeError (JSValue.prim (.str "Rejected")))) ∧
      (∀ v, unwrapResult
          (runInvocation none requestId arg (.reject v) []).finalAction =
        Except.error v) := by
  intro e requestId arg
  refine ⟨⟨serializeErrArg (.plain e), rfl, rfl⟩, ?_, ?_, fun _ => rfl⟩
  · intro h
    show some (miniSerializeError
        (if jsTruthy e then e else JSValue.prim (.str "Rejected"))) =
      some (miniSerializeError e)
    rw [h]
    simp
  · intro h
    show some (miniSerializeError
        (if jsTruthy e then e else JSValue.prim (.str "Rejected"))) =
      some (miniSerializeError (JSValue.prim (.str "Rejected")))
    rw [h]
    simp

/-- Witness for the amended C2 theorem: a truthy thrown number stores its
own normalization and a falsy thrown zero stores the normalization of the
fallback literal Rejected. -/
theorem claim2_unwrap_uncaught_serialized_witness :
    (runInvocation none "id" (JSValue.prim .null)
        (.thrown (JSValue.prim (.num 42))) []).finalAction.errorOf =
      some (miniSerializeError (JSValue.prim (.num 42))) ∧
    (runInvocation none "id" (JSValue.prim .null)
        (.thrown (JSValue.prim (.num 0))) []).finalAction.errorOf =
      some (miniSerializeError (JSValue.prim (.str "Rejected"))) :=
  ⟨(claim2_unwrap_uncaught_serialized (JSValue.prim (.num 42)) "id"
      (JSValue.prim .null)).2.1 rfl,
   (claim2_unwrap_uncaught_serialized (JSValue.prim (.num 0)) "id"
      (JSValue.prim .null)).2.2.1 rfl⟩

/-- C1 counterexample: with a gate returning false and the dispatch
option absent (its boolean default false), the condition skip terminal
event is produced but nothing reaches the sink, refuting the claim that
the skip event is dispatched by default. -/
theorem claim1_default_skip_not_dispatched_cex :
    ((runInvocation (some ⟨some (some false), false⟩) "id"
        (JSValue.prim .null) (.value (JSValue.prim .null))
        []).finalAction).conditionOf = true ∧
    (runInvocation (some ⟨some (some false), false⟩) "id"
        (JSValue.prim .null) (.value (JSValue.prim .null)) []).trace = [] :=
  ⟨rfl, rfl⟩

/-- C1 amended: when the gate returns exactly false, the condition skip
terminal event reaches the sink exactly when the
dispatchConditionRejection option is set, that is when suppression is
switched off; with the option absent, hence its default false, the skip
event is not dispatched. -/
theorem claim1_skip_dispatch_iff :
    ∀ (b : Bool) (requestId : String) (arg : JSValue) (comp : CompResult)
      (aborts : List AbortCall),
      ((runInvocation (some ⟨some (some false), b⟩) requestId arg comp
          aborts).finalAction ∈
        (runInvocation (some ⟨some (some false), b⟩) requestId arg comp
          aborts).trace ↔ b = true) ∧
      (runInvocation (some ⟨some (some false), b⟩) requestId arg comp
          aborts).trace =
        (if b then
          [(runInvocation (some ⟨some (some false), b⟩) requestId arg comp
              aborts).finalAction]
         else []) := by
  intro b requestId arg comp aborts
  cases b with
  | false => exact ⟨iff_of_false (List.not_mem_nil _) (by decide), rfl⟩
  | true => exact ⟨iff_of_true (List.mem_singleton_self _) rfl, rfl⟩

/-- C4: when the gate returns exactly false, no Started event is emitted
and the invocation settles with a Failed event whose condition flag is
set, whose aborted and rejectedWithValue flags are cleared, whose payload
is undefined so no original failure value is retained, and whose
serialized error comes from the internal condition error literal. -/
theorem claim4_condition_skip_event :
    ∀ (b : Bool) (requestId : String) (arg : JSValue) (comp : CompResult)
      (aborts : List AbortCall),
      (runInvocation (some ⟨some (some false), b⟩) requestId arg comp
          aborts).finalAction =
        Action.rejected none
          { name := some "ConditionError",
            message :=
              some "Aborted due to condition callback returning false." }
          arg requestId false false true ∧
      (runInvocation (some ⟨some (some false), b⟩) requestId arg comp
          aborts).trace =
        (if b then
          [Action.rejected none
            { name := some "ConditionError",
              message :=
                some "Aborted due to condition callback returning false." }
            arg requestId false false true]
         else []) := by
  intro b requestId arg comp aborts
  cases b <;> exact ⟨rfl, rfl⟩

/-- C6: an abort with a reason made after the Started event while the
computation is pending settles the invocation with a Failed event whose
aborted flag is set, whose rejectedWithValue flag is cleared and whose
serialized error message is the reason when it is a non empty string and
the default Aborted otherwise; the Started event then the terminal event
reach the sink, exactly one terminal event is dispatched, and a second
abort call changes nothing: the whole run is identical. -/
theorem claim6_abort_while_running :
    ∀ (requestId : String) (arg : JSValue) (comp : CompResult)
      (r1 r2 : Option String),
      (runInvocation none requestId arg comp
          [⟨.whileRunning, r1⟩]).finalAction =
        Action.rejected none
          { name := some "AbortError", message := some (jsOr r1 "Aborted") }
          arg requestId false true false ∧
      (runInvocation none requestId arg comp [⟨.whileRunning, r1⟩]).trace =
        [Action.pending requestId arg,
         (runInvocation none requestId arg comp
            [⟨.whileRunning, r1⟩]).finalAction] ∧
      runInvocation none requestId arg comp
          [⟨.whileRunning, r1⟩, ⟨.whileRunning, r2⟩] =
        runInvocation none requestId arg comp [⟨.whileRunning, r1⟩] ∧
      ((runInvocation none requestId arg comp
          [⟨.whileRunning, r1⟩]).trace.filter isTerminalA).length = 1 := by
  intro requestId arg comp r1 r2
  exact ⟨rfl, rfl, rfl, rfl⟩

/-- C7: an abort call made before the invocation is marked started is a
silent no op: the run with it prepended is identical to the run without
it, so the computation settles normally and the terminal event is
unchanged; on the condition skip path the invocation is never marked
started, and the run ignores every abort call whatever its phase. -/
theorem claim7_abort_before_start_noop :
    ∀ (options : Option Opts) (requestId : String) (arg : JSValue)
      (comp : CompResult) (r : Option String) (aborts : List AbortCall)
      (b : Bool),
      runInvocation options requestId arg comp
          (⟨.beforeStart, r⟩ :: aborts) =
        runInvocation options requestId arg comp aborts ∧
      runInvocation (some ⟨some (some false), b⟩) requestId arg comp
          aborts =
        runInvocation (some ⟨some (some false), b⟩) requestId arg comp [] := by
  intro options requestId arg comp r aborts b
  exact ⟨rfl, rfl⟩

/-- C5: in every invocation the final action is a terminal event and is
produced exactly once; the sink trace has no duplicate event; at most one
terminal event reaches the sink; a Started event, when present in the
trace, is its first element, hence strictly precedes any terminal event
at the sink; and outside the condition skip path the Started event is
emitted and heads the trace. -/
theorem claim5_event_ordering :
    ∀ (options : Option Opts) (requestId : String) (arg : JSValue)
      (comp : CompResult) (aborts : List AbortCall),
      isTerminalA
        (runInvocation options requestId arg comp aborts).finalAction =
        true ∧
      (runInvocation options requestId arg comp aborts).trace.Nodup ∧
      ((runInvocation options requestId arg comp aborts).trace.filter
        isTerminalA).length ≤ 1 ∧
      (∀ e, e ∈ (runInvocation options requestId arg comp aborts).trace →
        isStartedA e = true →
        (runInvocation options requestId arg comp aborts).trace.head? =
          some e) ∧
      (gateSkips options = false →
        (runInvocation options requestId arg comp aborts).trace.head? =
          some (Action.pending requestId arg)) := by
  intro options requestId arg comp aborts
  have hterm := isTerminalA_finalActionOf options requestId arg comp aborts
  have hterm' : isTerminalA
      (runInvocation options requestId arg comp aborts).finalAction =
      true := hterm
  have hne := pending_ne_of_terminal hterm' requestId arg
  have hns := isStartedA_false_of_terminal hterm'
  refine ⟨hterm', ?_, ?_, ?_, ?_⟩
  · rcases trace_shape options requestId arg comp aborts with h | h | h | h <;>
      rw [h]
    · exact List.nodup_nil
    · exact List.nodup_singleton _
    · exact List.nodup_singleton _
    · exact List.nodup_cons.mpr ⟨by simpa using hne, List.nodup_singleton _⟩
  · rcases trace_shape options requestId arg comp aborts with h | h | h | h <;>
      rw [h] <;> simp [List.filter_cons, hterm', isTerminalA_pending]
  · intro e he hs
    rcases trace_shape options requestId arg comp aborts with h | h | h | h <;>
      rw [h] at he ⊢
    · exact absurd he (List.not_mem_nil e)
    · rw [List.mem_singleton] at he
      subst he
      rw [hns] at hs
      exact Bool.noConfusion hs
    · rw [List.mem_singleton] at he
      subst he
      rfl
    · rcases List.mem_cons.mp he with he1 | he2
      · subst he1
        rfl
      · rw [List.mem_singleton] at he2
        subst he2
        rw [hns] at hs
        exact Bool.noConfusion hs
  · exact trace_head_of_not_skip options requestId arg comp aborts

/-- Witness for C5: on a concrete gateless invocation, the ordering
theorem yields that the Started event heads the sink trace, both through
its no skip clause and through its Started membership clause on a second
concrete invocation. -/
theorem claim5_event_ordering_witness :
    (runInvocation none "r1" (JSValue.prim .null)
        (CompResult.value (JSValue.prim .null)) []).trace.head? =
      some (Action.pending "r1" (JSValue.prim .null)) ∧
    (runInvocation none "r2" (JSValue.prim .null)
        (CompResult.thrown (JSValue.prim .null)) []).trace.head? =
      some (Action.pending "r2" (JSValue.prim .null)) :=
  ⟨(claim5_event_ordering none "r1" (JSValue.prim .null)
      (CompResult.value (JSValue.prim .null)) []).2.2.2.2 rfl,
   (claim5_event_ordering none "r2" (JSValue.prim .null)
      (CompResult.thrown (JSValue.prim .null)) []).2.2.2.1
     (Action.pending "r2" (JSValue.prim .null)) (by decide) rfl⟩

end AsyncThunk
